import Mathlib

/-!
Verification of the gen2brain/mpeg MPEG-1 decoder (Go) against its
natural-language specification.

This file shallowly embeds the parts of the Go source that the checked
claims are about:

* `Buffer` and its bit-level operations (src/buffer.go),
* the demultiplexer constants, packet dispatch, `decodeTime` and
  `decodePacket` (src/demux.go),
* the video frame-reordering state machine (`Video.Decode`,
  `Video.decodePicture`), the macroblock address logic
  (`Video.decodeMacroblock`), motion-vector arithmetic
  (`Video.decodeMotionVector`) and the AC-coefficient dequantization of
  `Video.decodeBlock` with its static tables (src/video.go),
* the MP2 audio header parser `Audio.decodeHeader` and the sample-buffer
  allocation of `NewAudio` (audio source file of the same package).

Conventions.  Go byte slices become `List Nat` (each entry < 256 where it
matters, reads mask explicitly exactly as the source does).  Go `int` is
`Int` where negative values can occur and `Nat` where the source value is
a bit-field read (always non-negative); `x >> k` on a Go int is the
arithmetic shift `x >>> k` on `Int`, Go `/` and `%` on int are `Int.tdiv`
and `Int.tmod` (truncated division).  Go `float64` is `Float`.  The
buffer load callback is modelled as absent, which the source explicitly
allows (a callback may do nothing; packet-driven buffers have none).
Source loops whose iteration count is bounded by the data are written
with an explicit structural `fuel` argument so that they compute by
kernel reduction; every wrapper passes a fuel value that the loop can
never exhaust (each iteration consumes at least one bit or byte of the
finite buffer), so the embedded function agrees with the source loop.
-/

/-- Byte store with a bit-granular read cursor, from the Go struct
`Buffer` in src/buffer.go.  The `io.Reader` is modelled only by its
presence (`hasReader`) and the recorded `totalSize`; the `available`
scratch and the load callback (modelled absent) carry no state. -/
structure Buffer where
  bytes : List Nat
  bitIndex : Nat
  totalSize : Nat
  hasEnded : Bool
  discardRead : Bool
  hasReader : Bool
  deriving Repr, DecidableEq

namespace Buffer

/-- Go `Buffer.Index`: `bitIndex >> 3`. -/
def Index (b : Buffer) : Nat :=
  b.bitIndex >>> 3

/-- Go `Buffer.discardReadBytes`: compact out already-consumed bytes. -/
def discardReadBytes (b : Buffer) : Buffer :=
  let bytePos := b.bitIndex >>> 3
  if bytePos = b.bytes.length then
    { b with bytes := [], bitIndex := 0 }
  else if bytePos > 0 then
    { b with bytes := b.bytes.drop bytePos, bitIndex := b.bitIndex - (bytePos <<< 3) }
  else
    b

/-- Go `Buffer.Write`: append bytes, compacting first when `discardRead`
is set; clears `hasEnded`. -/
def write (b : Buffer) (p : List Nat) : Buffer :=
  let b := if b.discardRead then b.discardReadBytes else b
  { b with bytes := b.bytes ++ p, hasEnded := false }

/-- Go `Buffer.has`: bit availability check.  The load callback is
modelled as absent, so only the end-of-source bookkeeping remains. -/
def has (b : Buffer) (count : Nat) : Bool × Buffer :=
  if b.bitIndex + count ≤ b.bytes.length <<< 3 then
    (true, b)
  else if b.totalSize ≠ 0 ∧ b.bytes.length = b.totalSize then
    (false, { b with hasEnded := true })
  else
    (false, b)

/-- The loop body of Go `Buffer.read`: consume `count` bits MSB-first,
byte run by byte run, returning the accumulated value and the final bit
cursor.  Each iteration consumes at least one bit, so `fuel := count`
(passed by `Buffer.read`) can never run out. -/
def readAux (bytes : List Nat) (fuel bitIndex count value : Nat) : Nat × Nat :=
  match count, fuel with
  | 0, _ => (value, bitIndex)
  | _ + 1, 0 => (value, bitIndex)
  | count + 1, fuel + 1 =>
    let currentByte := bytes.getD (bitIndex >>> 3) 0
    let remaining := 8 - bitIndex % 8
    let rd := if remaining < count + 1 then remaining else count + 1
    let shift := remaining - rd
    let mask := 255 >>> (8 - rd)
    let value := (value <<< rd) ||| ((currentByte &&& (mask <<< shift)) >>> shift)
    readAux bytes fuel (bitIndex + rd) (count + 1 - rd) value

/-- Go `Buffer.read`: returns 0 when the bits are unavailable. -/
def read (b : Buffer) (count : Nat) : Nat × Buffer :=
  let pr := b.has count
  let b := pr.2
  if pr.1 then
    let vb := readAux b.bytes count b.bitIndex count 0
    (vb.1, { b with bitIndex := vb.2 })
  else
    (0, b)

/-- Go `Buffer.read1`: read a single bit. -/
def read1 (b : Buffer) : Nat × Buffer :=
  let pr := b.has 1
  let b := pr.2
  if pr.1 then
    let currentByte := b.bytes.getD (b.bitIndex >>> 3) 0
    let shift := 7 - b.bitIndex % 8
    let value := (currentByte &&& (1 <<< shift)) >>> shift
    (value, { b with bitIndex := b.bitIndex + 1 })
  else
    (0, b)

/-- Go `Buffer.align`: move the cursor to the next byte boundary. -/
def align (b : Buffer) : Buffer :=
  { b with bitIndex := ((b.bitIndex + 7) >>> 3) <<< 3 }

/-- Go `Buffer.skip`: advance when the bits are available. -/
def skip (b : Buffer) (count : Nat) : Buffer :=
  let pr := b.has count
  let b := pr.2
  if pr.1 then { b with bitIndex := b.bitIndex + count } else b

/-- The loop of Go `Buffer.skipBytes` after the initial `align`: skip
consecutive bytes equal to `v`, counting them.  The `has 8` guard of the
source is the condition; each iteration advances the cursor by one byte
inside the buffer, so `fuel := bytes.length + 1` can never run out. -/
def skipBytesAux (bytes : List Nat) (v : Nat) (fuel bitIndex skipped : Nat) :
    Nat × Nat :=
  match fuel with
  | 0 => (skipped, bitIndex)
  | fuel + 1 =>
    if bitIndex + 8 ≤ bytes.length <<< 3 ∧ bytes.getD (bitIndex >>> 3) 0 = v then
      skipBytesAux bytes v fuel (bitIndex + 8) (skipped + 1)
    else
      (skipped, bitIndex)

/-- Go `Buffer.skipBytes`: align, then skip bytes equal to `v`.  The
final failing `has 8` call of the loop updates `hasEnded` exactly as in
the source; when the loop stops on a byte different from `v` the last
`has 8` call succeeded and left the state unchanged. -/
def skipBytes (b : Buffer) (v : Nat) : Nat × Buffer :=
  let b := b.align
  let sb := skipBytesAux b.bytes v (b.bytes.length + 1) b.bitIndex 0
  let b := { b with bitIndex := sb.2 }
  if sb.2 + 8 ≤ b.bytes.length <<< 3 then
    (sb.1, b)
  else
    (sb.1, (b.has 8).2)

/-- The scan loop of Go `Buffer.nextStartCode` after the initial
`align`: look for `0x00 0x00 0x01`, requiring five bytes of headroom
(`has (5 << 3)`).  Returns the code (or -1) and the final bit cursor.
Each iteration advances the cursor one byte inside the buffer, so
`fuel := bytes.length + 1` can never run out. -/
def nextStartCodeAux (bytes : List Nat) (fuel bitIndex : Nat) : Int × Nat :=
  match fuel with
  | 0 => (-1, bitIndex)
  | fuel + 1 =>
    if bitIndex + 40 ≤ bytes.length <<< 3 then
      let byteIndex := bitIndex >>> 3
      if bytes.getD byteIndex 0 = 0 ∧ bytes.getD (byteIndex + 1) 0 = 0 ∧
          bytes.getD (byteIndex + 2) 0 = 1 then
        (Int.ofNat (bytes.getD (byteIndex + 3) 0), (byteIndex + 4) <<< 3)
      else
        nextStartCodeAux bytes fuel (bitIndex + 8)
    else
      (-1, bitIndex)

/-- Go `Buffer.nextStartCode`.  As in `skipBytes`, the failing `has`
call that ends an unsuccessful scan updates `hasEnded`. -/
def nextStartCode (b : Buffer) : Int × Buffer :=
  let b := b.align
  let cb := nextStartCodeAux b.bytes (b.bytes.length + 1) b.bitIndex
  let b := { b with bitIndex := cb.2 }
  if cb.1 = -1 then (cb.1, (b.has 40).2) else (cb.1, b)

/-- The scan loop of Go `Buffer.findFrameSync`: byte-wise search for the
MP2 sync pattern `0xFF, 0b1111_110x`.  Returns whether a sync was found
and the final bit cursor (`((i+1) << 3) + 3` on a hit, `(i+1) << 3` when
the loop exhausts the buffer, exactly as the source leaves `bitIndex`;
note the Go loop `for i = bitIndex>>3; i < len(bytes)-1; i++` runs its
final assignment `bitIndex = (i+1) << 3` even when it never iterates).
Fuel `bytes.length + 1` can never run out since `i` starts at the byte
cursor and increases while below `bytes.length - 1`. -/
def findFrameSyncAux (bytes : List Nat) (fuel i : Nat) : Bool × Nat :=
  match fuel with
  | 0 => (false, (i + 1) <<< 3)
  | fuel + 1 =>
    if i + 1 < bytes.length then
      if bytes.getD i 0 = 0xFF ∧ bytes.getD (i + 1) 0 &&& 0xFE = 0xFC then
        (true, ((i + 1) <<< 3) + 3)
      else
        findFrameSyncAux bytes fuel (i + 1)
    else
      (false, (i + 1) <<< 3)

/-- Go `Buffer.findFrameSync`. -/
def findFrameSync (b : Buffer) : Bool × Buffer :=
  let fb := findFrameSyncAux b.bytes (b.bytes.length + 1) (b.bitIndex >>> 3)
  (fb.1, { b with bitIndex := fb.2 })

/-- Go `Buffer.seek` (demuxer-internal).  With a seekable reader the
byte window is dropped and the cursor reset; with no reader only
position 0 is honoured. -/
def seek (b : Buffer) (pos : Nat) : Buffer :=
  let b := { b with hasEnded := false }
  if b.hasReader ∧ b.totalSize > 0 then
    { b with bytes := [], bitIndex := 0 }
  else if ¬ b.hasReader then
    if pos ≠ 0 then b else { b with bytes := [], bitIndex := 0 }
  else
    b

/-- Go `Buffer.peekNonZero`: read `bitCount` bits, restore the cursor,
report whether they were available and non-zero. -/
def peekNonZero (b : Buffer) (bitCount : Nat) : Bool × Buffer :=
  let pr := b.has bitCount
  let b := pr.2
  if pr.1 then
    let vb := b.read bitCount
    (decide (vb.1 ≠ 0), { vb.2 with bitIndex := vb.2.bitIndex - bitCount })
  else
    (false, b)

end Buffer

example : (Buffer.readAux [0xB5, 0x40] 4 0 4 0).1 = 0xB := by decide
example : (Buffer.readAux [0xB5, 0x40] 8 2 8 0).1 = 0xD5 := by decide
example : (Buffer.findFrameSyncAux [0x00, 0xFF, 0xFD, 0x00] 5 0) = (true, 19) := by decide
example : (Buffer.findFrameSyncAux [] 1 0) = (false, 8) := by decide
example : (Buffer.skipBytesAux [0xFF, 0xFF, 0x01] 0xFF 4 0 0) = (2, 16) := by decide
example : (Buffer.nextStartCodeAux [0, 0, 1, 0xB3, 9, 9] 7 0) = (0xB3, 32) := by decide

/-! ### Buffer cursor invariant (claim C8)

The claimed invariant is that after any sequence of buffer operations
the byte index `bitIndex >> 3` never exceeds the byte length of the
buffer.  We show it is preserved by every operation except
`findFrameSync`, and by `findFrameSync` whenever at least one unread
byte remains; `findFrameSync` invoked with the cursor at (or past) the
end of the byte store moves the cursor one byte further, past the end.
-/

/-- One buffer operation, as listed in the claim: the argument of
`write` is the byte list to append; results of reads are discarded
since only the cursor/length relation is at stake. -/
inductive BufOp where
  | write (p : List Nat)
  | read (n : Nat)
  | read1
  | skip (n : Nat)
  | align
  | skipBytes (v : Nat)
  | nextStartCode
  | findFrameSync
  | seek (pos : Nat)
  | discardReadBytes
  deriving Repr, DecidableEq

/-- Apply one buffer operation, dropping the returned value. -/
def applyOp (b : Buffer) : BufOp → Buffer
  | .write p => b.write p
  | .read n => (b.read n).2
  | .read1 => (b.read1).2
  | .skip n => b.skip n
  | .align => b.align
  | .skipBytes v => (b.skipBytes v).2
  | .nextStartCode => (b.nextStartCode).2
  | .findFrameSync => (b.findFrameSync).2
  | .seek pos => b.seek pos
  | .discardReadBytes => b.discardReadBytes

/-- Apply a sequence of buffer operations in order. -/
def applyOps (b : Buffer) (ops : List BufOp) : Buffer :=
  ops.foldl applyOp b


theorem shiftLeft3_eq (n : Nat) : n <<< 3 = 8 * n := by
  simp [Nat.shiftLeft_eq]; omega

theorem shiftRight3_eq (n : Nat) : n >>> 3 = n / 8 := by
  simp [Nat.shiftRight_eq_div_pow]

theorem has_snd_bitIndex (b : Buffer) (n : Nat) : (b.has n).2.bitIndex = b.bitIndex := by
  unfold Buffer.has
  split
  · rfl
  · split <;> rfl

theorem has_snd_bytes (b : Buffer) (n : Nat) : (b.has n).2.bytes = b.bytes := by
  unfold Buffer.has
  split
  · rfl
  · split <;> rfl

theorem has_fst_true (b : Buffer) (n : Nat) (h : (b.has n).1 = true) :
    b.bitIndex + n ≤ b.bytes.length <<< 3 := by
  unfold Buffer.has at h
  split at h
  · assumption
  · split at h <;> simp at h

/-- The bit-read loop advances the cursor by exactly the requested bit
count when given at least `count` fuel. -/
theorem readAux_bitIndex (bytes : List Nat) :
    ∀ fuel count bitIndex value, count ≤ fuel →
      (Buffer.readAux bytes fuel bitIndex count value).2 = bitIndex + count := by
  intro fuel
  induction fuel with
  | zero =>
    intro c bi v h
    have hc : c = 0 := by omega
    subst hc
    rfl
  | succ fuel ih =>
    intro c bi v h
    match c with
    | 0 => rfl
    | c + 1 =>
      simp only [Buffer.readAux]
      split
      · next hsplit => rw [ih _ _ _ (by omega)]; omega
      · next hsplit => rw [ih _ _ _ (by omega)]; omega

/-- The `skipBytes` loop never moves the cursor past the byte length. -/
theorem skipBytesAux_le (bytes : List Nat) (v : Nat) :
    ∀ fuel bitIndex skipped, bitIndex ≤ bytes.length <<< 3 →
      (Buffer.skipBytesAux bytes v fuel bitIndex skipped).2 ≤ bytes.length <<< 3 := by
  intro fuel
  induction fuel with
  | zero => intro bi sk h; exact h
  | succ fuel ih =>
    intro bi sk h
    simp only [Buffer.skipBytesAux]
    split
    · next hc => exact ih _ _ (by omega)
    · exact h

/-- The `nextStartCode` scan never moves the cursor past the byte
length. -/
theorem nextStartCodeAux_le (bytes : List Nat) :
    ∀ fuel bitIndex, bitIndex ≤ bytes.length <<< 3 →
      (Buffer.nextStartCodeAux bytes fuel bitIndex).2 ≤ bytes.length <<< 3 := by
  intro fuel
  induction fuel with
  | zero => intro bi h; exact h
  | succ fuel ih =>
    intro bi h
    simp only [Buffer.nextStartCodeAux]
    split
    · next hc =>
      split
      · next hm =>
        simp only [shiftLeft3_eq, shiftRight3_eq] at *
        omega
      · exact ih _ (by omega)
    · exact h

/-- The `findFrameSync` scan stays in bounds when started strictly
inside the byte store. -/
theorem findFrameSyncAux_le (bytes : List Nat) :
    ∀ fuel i, i < bytes.length →
      (Buffer.findFrameSyncAux bytes fuel i).2 ≤ bytes.length <<< 3 := by
  intro fuel
  induction fuel with
  | zero =>
    intro i h
    simp only [Buffer.findFrameSyncAux, shiftLeft3_eq]
    omega
  | succ fuel ih =>
    intro i h
    simp only [Buffer.findFrameSyncAux]
    split
    · next hc =>
      split
      · next hm => simp only [shiftLeft3_eq]; omega
      · exact ih _ (by omega)
    · simp only [shiftLeft3_eq]; omega

/-- Every buffer operation except `findFrameSync` keeps the bit cursor
within the byte store. -/
theorem applyOp_preserves (b : Buffer) (o : BufOp)
    (hinv : b.bitIndex ≤ b.bytes.length <<< 3) (ho : o ≠ BufOp.findFrameSync) :
    (applyOp b o).bitIndex ≤ (applyOp b o).bytes.length <<< 3 := by
  have hdiscard : b.discardReadBytes.bitIndex ≤ b.discardReadBytes.bytes.length <<< 3 := by
    simp only [Buffer.discardReadBytes]
    split
    · simp
    · split
      · next h2 =>
        simp only [List.length_drop, shiftLeft3_eq, shiftRight3_eq] at *
        omega
      · exact hinv
  have halign : b.align.bitIndex ≤ b.align.bytes.length <<< 3 ∧ b.align.bytes = b.bytes := by
    refine ⟨?_, rfl⟩
    simp only [Buffer.align, shiftLeft3_eq, shiftRight3_eq] at *
    omega
  cases o with
  | write p =>
    simp only [applyOp, Buffer.write]
    split
    · simp only [List.length_append, shiftLeft3_eq] at *
      omega
    · simp only [List.length_append, shiftLeft3_eq] at *
      omega
  | read n =>
    simp only [applyOp, Buffer.read]
    split
    · next hp =>
      have := has_fst_true b n hp
      simp only [readAux_bitIndex _ _ _ _ _ le_rfl, has_snd_bitIndex, has_snd_bytes]
      omega
    · simp only [has_snd_bitIndex, has_snd_bytes]
      exact hinv
  | read1 =>
    simp only [applyOp, Buffer.read1]
    split
    · next hp =>
      have := has_fst_true b 1 hp
      simp only [has_snd_bitIndex, has_snd_bytes]
      omega
    · simp only [has_snd_bitIndex, has_snd_bytes]
      exact hinv
  | skip n =>
    simp only [applyOp, Buffer.skip]
    split
    · next hp =>
      have := has_fst_true b n hp
      simp only [has_snd_bitIndex, has_snd_bytes]
      omega
    · simp only [has_snd_bitIndex, has_snd_bytes]
      exact hinv
  | align =>
    simp only [applyOp]
    exact halign.1
  | skipBytes v =>
    simp only [applyOp, Buffer.skipBytes]
    have := skipBytesAux_le b.align.bytes v (b.align.bytes.length + 1) b.align.bitIndex 0 halign.1
    split
    · exact this
    · simp only [has_snd_bitIndex, has_snd_bytes]
      exact this
  | nextStartCode =>
    simp only [applyOp, Buffer.nextStartCode]
    have := nextStartCodeAux_le b.align.bytes (b.align.bytes.length + 1) b.align.bitIndex halign.1
    split
    · simp only [has_snd_bitIndex, has_snd_bytes]
      exact this
    · exact this
  | findFrameSync => exact absurd rfl ho
  | seek pos =>
    simp only [applyOp, Buffer.seek]
    split
    · simp
    · split
      · split
        · exact hinv
        · simp
      · exact hinv
  | discardReadBytes => exact hdiscard

/-- Go `NewBuffer` over a plain reader: empty window, cursor 0, unknown
total size, `discardRead` enabled. -/
def newBuffer : Buffer :=
  { bytes := [], bitIndex := 0, totalSize := 0, hasEnded := false,
    discardRead := true, hasReader := true }

/-- C8, counterexample.  The claimed invariant
`bit_index >> 3 ≤ len(bytes)` is broken by `findFrameSync`: invoked on a
fresh (empty) buffer it leaves the byte index at 1 while the buffer
holds 0 bytes, because the Go loop ends with
`bitIndex = (i+1) << 3` even when the cursor already sat at the end of
the byte store. -/
theorem findFrameSync_breaks_cursor_invariant :
    ¬ ((applyOps newBuffer [BufOp.findFrameSync]).bitIndex >>> 3 ≤
        (applyOps newBuffer [BufOp.findFrameSync]).bytes.length) := by
  decide

/-- C8, amended.  For every sequence of the listed buffer operations
that contains no `findFrameSync`, a cursor inside the byte store stays
inside it, and hence the byte index `bitIndex >> 3` never exceeds the
byte length; `findFrameSync` also preserves the invariant provided the
byte cursor is strictly below the buffer length when it is called (when
the cursor is at or past the end, a failed sync scan pushes it one byte
further, as the counterexample shows). -/
theorem buffer_cursor_invariant :
    (∀ (b : Buffer) (ops : List BufOp),
      b.bitIndex ≤ b.bytes.length <<< 3 →
      (∀ o ∈ ops, o ≠ BufOp.findFrameSync) →
      (applyOps b ops).bitIndex ≤ (applyOps b ops).bytes.length <<< 3 ∧
      (applyOps b ops).bitIndex >>> 3 ≤ (applyOps b ops).bytes.length) ∧
    (∀ b : Buffer,
      b.bitIndex ≤ b.bytes.length <<< 3 →
      b.bitIndex >>> 3 < b.bytes.length →
      (applyOp b BufOp.findFrameSync).bitIndex ≤
        (applyOp b BufOp.findFrameSync).bytes.length <<< 3 ∧
      (applyOp b BufOp.findFrameSync).bitIndex >>> 3 ≤
        (applyOp b BufOp.findFrameSync).bytes.length) := by
  constructor
  · have key : ∀ (ops : List BufOp) (b : Buffer),
        b.bitIndex ≤ b.bytes.length <<< 3 →
        (∀ o ∈ ops, o ≠ BufOp.findFrameSync) →
        (applyOps b ops).bitIndex ≤ (applyOps b ops).bytes.length <<< 3 := by
      intro ops
      induction ops with
      | nil => intro b h _; exact h
      | cons o rest ih =>
        intro b h hmem
        exact ih _ (applyOp_preserves b o h (hmem o (by simp)))
          (fun x hx => hmem x (by simp [hx]))
    intro b ops h hmem
    refine ⟨key ops b h hmem, ?_⟩
    have := key ops b h hmem
    simp only [shiftLeft3_eq, shiftRight3_eq] at *
    omega
  · intro b h hlt
    have hle := findFrameSyncAux_le b.bytes (b.bytes.length + 1) (b.bitIndex >>> 3) hlt
    simp only [applyOp, Buffer.findFrameSync]
    refine ⟨hle, ?_⟩
    simp only [shiftLeft3_eq, shiftRight3_eq] at *
    omega

/-- Witness for the amended C8 theorem at a concrete buffer and a
concrete operation sequence. -/
theorem buffer_cursor_invariant_witness :
    (applyOps { newBuffer with bytes := [0x00, 0x00, 0x01, 0xB3, 0xFF, 0xAB] }
        [BufOp.read 8, BufOp.skip 3, BufOp.align, BufOp.nextStartCode,
         BufOp.skipBytes 0xFF, BufOp.discardReadBytes, BufOp.write [1, 2, 3],
         BufOp.read1, BufOp.seek 0]).bitIndex >>> 3 ≤
      (applyOps { newBuffer with bytes := [0x00, 0x00, 0x01, 0xB3, 0xFF, 0xAB] }
        [BufOp.read 8, BufOp.skip 3, BufOp.align, BufOp.nextStartCode,
         BufOp.skipBytes 0xFF, BufOp.discardReadBytes, BufOp.write [1, 2, 3],
         BufOp.read1, BufOp.seek 0]).bytes.length :=
  (buffer_cursor_invariant.1 _ _ (by decide) (by decide)).2

/-! ### Demultiplexer (src/demux.go): packet constants, dispatch,
`decodeTime` and `decodePacket`. -/

/-- Go constant `PacketInvalidTS = -1`, the sentinel for a missing
PTS. -/
def PacketInvalidTS : Int := -1

/-- Go constant `PacketPrivate = 0xBD`. -/
def PacketPrivate : Int := 0xBD

/-- Go constant `PacketAudio1 = 0xC0`. -/
def PacketAudio1 : Int := 0xC0

/-- Go constant `PacketAudio2 = 0xC1`. -/
def PacketAudio2 : Int := 0xC1

/-- Go constant `PacketAudio3 = 0xC2`. -/
def PacketAudio3 : Int := 0xC2

/-- Go constant `PacketAudio4 = 0xC2` (sic: the source assigns `0xC2`,
the same value as `PacketAudio3`, where the fourth audio stream id of
MPEG-PS is `0xC3`). -/
def PacketAudio4 : Int := 0xC2

/-- Go constant `PacketVideo1 = 0xE0`. -/
def PacketVideo1 : Int := 0xE0

/-- The start-code dispatch of Go `Demux.Decode`: a packet start code is
decoded (rather than skipped) iff
`startCode == PacketVideo1 || startCode == PacketPrivate ||
(startCode >= PacketAudio1 && startCode <= PacketAudio4)`. -/
def demuxDecodeAccepts (startCode : Int) : Bool :=
  startCode == PacketVideo1 || startCode == PacketPrivate ||
    (PacketAudio1 ≤ startCode && startCode ≤ PacketAudio4)

/-- C1.  The claim says the demuxer accepts exactly the four audio PES
stream ids 0xC0..0xC3.  In the source `PacketAudio4` is `0xC2` - a
duplicate of `PacketAudio3` instead of `0xC3` - so `Demux.Decode` skips
every packet with start code 0xC3: the accepted audio set is exactly
{0xC0, 0xC1, 0xC2}.  This contradicts the source's own surface (four
named audio constants, `SetAudioStream(0..3)` mapping stream 3 to
`PacketAudio1 + 3 = 0xC3`, `NumAudioStreams` documented as 0..4), so the
constant is a slip in the code. -/
theorem demux_audio_accept_set :
    demuxDecodeAccepts 0xC0 = true ∧ demuxDecodeAccepts 0xC1 = true ∧
    demuxDecodeAccepts 0xC2 = true ∧ demuxDecodeAccepts 0xC3 = false ∧
    PacketAudio4 = PacketAudio3 ∧ PacketAudio1 + 3 = 0xC3 := by
  decide

/-- Demuxed packet, Go struct `Packet` (borrowed `Data` modelled as the
copied byte range). -/
structure Packet where
  type : Int
  pts : Float
  data : List Nat
  length : Int
  deriving Repr

/-- Go `Demux.decodeTime`: read the 33-bit clock as 3 + 15 + 15 bits
with a skipped marker bit after each field, and divide by 90000.0. -/
def decodeTime (b : Buffer) : Float × Buffer :=
  let r1 := b.read 3
  let clock := r1.1 <<< 30
  let b := r1.2.skip 1
  let r2 := b.read 15
  let clock := clock ||| (r2.1 <<< 15)
  let b := r2.2.skip 1
  let r3 := b.read 15
  let clock := clock ||| r3.1
  let b := r3.2.skip 1
  (Float.ofNat clock / 90000.0, b)

/-- Go `Buffer.has` as called from `Demux.packet` with the Go `int`
count `length << 3`, which may be negative for a corrupted length (the
comparison `remaining >= count` is then trivially true). -/
def hasInt (b : Buffer) (count : Int) : Bool × Buffer :=
  if (b.bytes.length <<< 3 : Int) - b.bitIndex ≥ count then
    (true, b)
  else if b.totalSize ≠ 0 ∧ b.bytes.length = b.totalSize then
    (false, { b with hasEnded := true })
  else
    (false, b)

/-- Go `Demux.packet`: the final step of packet decoding - if the whole
payload is buffered, borrow `length` bytes at the current byte index
(the cursor itself is only advanced at the next `Decode` call).  The
demuxer bookkeeping (`currentPacket`/`nextPacket` swap) is represented
by returning the packet. -/
def demuxPacketFinish (typ : Int) (pts : Float) (length : Int) (b : Buffer) :
    Option (Packet × Buffer) :=
  let pr := hasInt b (length <<< 3)
  if pr.1 then
    let b := pr.2
    some ({ type := typ, pts := pts,
            data := (b.bytes.drop b.Index).take length.toNat,
            length := length }, b)
  else
    none

/-- Go `Demux.decodePacket`: packet length, stuffing, optional P-STD,
then the 2-bit PTS/DTS marker (the `lastDecodedPts` and `startCode`
bookkeeping of the surrounding `Demux` struct carries no information
relevant here and is not modelled). -/
def decodePacket (typ : Int) (b : Buffer) : Option (Packet × Buffer) :=
  let h0 := b.has (16 <<< 3)
  if h0.1 then
    let b := h0.2
    let r1 := b.read 16
    let sb := r1.2.skipBytes 0xFF
    let length : Int := (r1.1 : Int) - sb.1
    let r2 := sb.2.read 2
    let b := if r2.1 = 0x01 then r2.2.skip 16 else r2.2
    let length := if r2.1 = 0x01 then length - 2 else length
    let r3 := b.read 2
    let b := r3.2
    if r3.1 = 0x03 then
      let t := decodeTime b
      demuxPacketFinish typ t.1 (length - 10) (t.2.skip 40)
    else if r3.1 = 0x02 then
      let t := decodeTime b
      demuxPacketFinish typ t.1 (length - 5) t.2
    else if r3.1 = 0x00 then
      demuxPacketFinish typ (Float.ofInt PacketInvalidTS) (length - 1) (b.skip 4)
    else
      none
  else
    none

/-- C3.  After the 16-bit length, the 0xFF stuffing and the optional
P-STD field (2 bits, plus 16 skipped bits and a length reduction of 2
when its marker reads 0b01), the 2-bit PTS/DTS marker decides the
outcome of `Demux.decodePacket`: 0b11 reads the PTS, skips 40 bits of
DTS and reduces the length by 10; 0b10 reads only the PTS and reduces
the length by 5; 0b00 stores the invalid-timestamp sentinel, skips 4
bits and reduces the length by 1; the only other 2-bit value, 0b01,
yields `none`.  Every decoded PTS is the 33-bit clock - the 3-bit high,
15-bit mid and 15-bit low fields with marker bits skipped in between -
divided by 90000.0. -/
theorem decodePacket_marker_cases (typ : Int) (b b0 b1 b2 b3 b4 b5 : Buffer)
    (L stuffing pstd marker : Nat)
    (h0 : b.has (16 <<< 3) = (true, b0))
    (h1 : b0.read 16 = (L, b1))
    (h2 : b1.skipBytes 0xFF = (stuffing, b2))
    (h3 : b2.read 2 = (pstd, b3))
    (h4 : (if pstd = 0x01 then b3.skip 16 else b3) = b4)
    (h5 : b4.read 2 = (marker, b5)) :
    (marker = 0x03 →
      decodePacket typ b =
        demuxPacketFinish typ (decodeTime b5).1
          ((L : Int) - stuffing - (if pstd = 0x01 then 2 else 0) - 10)
          ((decodeTime b5).2.skip 40)) ∧
    (marker = 0x02 →
      decodePacket typ b =
        demuxPacketFinish typ (decodeTime b5).1
          ((L : Int) - stuffing - (if pstd = 0x01 then 2 else 0) - 5)
          (decodeTime b5).2) ∧
    (marker = 0x00 →
      decodePacket typ b =
        demuxPacketFinish typ (Float.ofInt PacketInvalidTS)
          ((L : Int) - stuffing - (if pstd = 0x01 then 2 else 0) - 1)
          (b5.skip 4)) ∧
    (marker ≠ 0x03 → marker ≠ 0x02 → marker ≠ 0x00 →
      decodePacket typ b = none) ∧
    (∀ t : Buffer,
      (decodeTime t).1 =
        Float.ofNat
          ((t.read 3).1 <<< 30 |||
            (((t.read 3).2.skip 1).read 15).1 <<< 15 |||
            (((((t.read 3).2.skip 1).read 15).2.skip 1).read 15).1) / 90000.0) := by
  have hmain : decodePacket typ b =
      (if marker = 0x03 then
        demuxPacketFinish typ (decodeTime b5).1
          (((L : Int) - stuffing - (if pstd = 0x01 then 2 else 0)) - 10)
          ((decodeTime b5).2.skip 40)
      else if marker = 0x02 then
        demuxPacketFinish typ (decodeTime b5).1
          (((L : Int) - stuffing - (if pstd = 0x01 then 2 else 0)) - 5)
          (decodeTime b5).2
      else if marker = 0x00 then
        demuxPacketFinish typ (Float.ofInt PacketInvalidTS)
          (((L : Int) - stuffing - (if pstd = 0x01 then 2 else 0)) - 1)
          (b5.skip 4)
      else none) := by
    rw [decodePacket, h0]
    simp only [h1, h2, h3]
    by_cases hp : pstd = 0x01
    · simp only [hp, if_pos rfl] at h4 ⊢
      rw [h4, h5]
      simp only [if_pos rfl]
      norm_num
    · simp only [if_neg hp] at h4 ⊢
      rw [h4, h5]
      simp only [if_neg hp]
      norm_num
  refine ⟨?_, ?_, ?_, ?_, fun t => rfl⟩
  · intro hm; rw [hmain]; simp [hm]
  · intro hm; rw [hmain]; simp [hm]
  · intro hm; rw [hmain]; simp [hm]
  · intro hm2 hm3 hm4; rw [hmain]; simp [hm2, hm3, hm4]

/-- Concrete PES packet for the C3 witness: length 14, no stuffing, no
P-STD, marker 0b10, PTS clock 90000 (one second), 9 payload bytes. -/
def c3Bytes : List Nat :=
  [0x00, 0x0E, 0x21, 0x00, 0x05, 0xBF, 0x21, 1, 2, 3, 4, 5, 6, 7, 8, 9]

/-- Buffer positioned at the start of the C3 witness packet. -/
def c3Buf : Buffer :=
  { bytes := c3Bytes, bitIndex := 0, totalSize := 0, hasEnded := false,
    discardRead := false, hasReader := false }

/-- Witness for C3: on the concrete packet the marker-0b10 case applies
and the 14-byte declared length shrinks to a 9-byte payload. -/
theorem decodePacket_marker_cases_witness :
    (decodePacket 0xE0 c3Buf).map (fun pb => pb.1.length) = some 9 := by
  rw [(decodePacket_marker_cases 0xE0 c3Buf c3Buf
      { c3Buf with bitIndex := 16 } { c3Buf with bitIndex := 16 }
      { c3Buf with bitIndex := 18 } { c3Buf with bitIndex := 18 }
      { c3Buf with bitIndex := 20 } 14 0 0 2
      (by decide) (by decide) (by decide) (by decide) (by decide)
      (by decide)).2.1 rfl]
  rfl

/-! ### Video decoder (src/video.go) -/

/-- Go helper `abs` in src/video.go. -/
def goAbs (x : Int) : Int :=
  if x < 0 then -x else x

/-- Go `Video.decodeMotionVector`.  The two bit-stream reads are passed
in: `mCode` is the value decoded from the `videoMotion` VLC table and
`r` the value of the `rSize` residual bits read when the scale is not
one (the source performs that read exactly in the branch modelled by
the condition below). -/
def decodeMotionVector (rSize : Nat) (mCode r motion : Int) : Int :=
  let fscale : Int := 1 <<< (rSize : Int)
  let d : Int :=
    if mCode ≠ 0 ∧ fscale ≠ 1 then
      let d0 := ((goAbs mCode - 1) <<< (rSize : Int)) + r + 1
      if mCode < 0 then -d0 else d0
    else
      mCode
  let motion := motion + d
  if motion > (fscale <<< (4 : Int)) - 1 then
    motion - (fscale <<< (5 : Int))
  else if motion < (-fscale) <<< (4 : Int) then
    motion + (fscale <<< (5 : Int))
  else
    motion

/-- The delta of the claim, written as the spec states it:
`sign(code) * ((|code|-1)·2^rSize + r + 1)` when the code is non-zero
and the scale exceeds one, the code itself otherwise. -/
def motionDelta (rSize : Nat) (mCode r : Int) : Int :=
  if mCode ≠ 0 ∧ (2 ^ rSize : Int) ≠ 1 then
    (if mCode < 0 then -1 else 1) * ((goAbs mCode - 1) * 2 ^ rSize + r + 1)
  else
    mCode

theorem int_shiftLeft_natCast (a : Int) (n : Nat) : a <<< (n : Int) = a * 2 ^ n := by
  rw [Int.shiftLeft_eq_mul_pow]
  norm_num

theorem int_shiftLeft_four (a : Int) : a <<< (4 : Int) = a * 16 := by
  rw [show (4 : Int) = ((4 : Nat) : Int) from rfl, int_shiftLeft_natCast]
  norm_num

theorem int_shiftLeft_five (a : Int) : a <<< (5 : Int) = a * 32 := by
  rw [show (5 : Int) = ((5 : Nat) : Int) from rfl, int_shiftLeft_natCast]
  norm_num

/-- C4.  With `fscale = 2^rSize`, a motion VLC code in -16..16, a
residual `r` in `[0, fscale)` and a previous component value in
`[-(fscale<<4), (fscale<<4)-1]`: `Video.decodeMotionVector` returns the
previous value plus the delta `motionDelta`, brought back into
`[-(fscale<<4), (fscale<<4)-1]` by a single subtraction or addition of
`fscale<<5` - and the returned value does lie in that interval. -/
theorem decodeMotionVector_spec (rSize : Nat) (mCode r motion : Int)
    (hm : goAbs mCode ≤ 16) (hr0 : 0 ≤ r) (hr1 : r < 2 ^ rSize)
    (hlo : -(2 ^ rSize * 16) ≤ motion) (hhi : motion ≤ 2 ^ rSize * 16 - 1) :
    decodeMotionVector rSize mCode r motion =
      (if motion + motionDelta rSize mCode r > 2 ^ rSize * 16 - 1 then
        motion + motionDelta rSize mCode r - 2 ^ rSize * 32
      else if motion + motionDelta rSize mCode r < -(2 ^ rSize * 16) then
        motion + motionDelta rSize mCode r + 2 ^ rSize * 32
      else
        motion + motionDelta rSize mCode r) ∧
    -(2 ^ rSize * 16) ≤ decodeMotionVector rSize mCode r motion ∧
    decodeMotionVector rSize mCode r motion ≤ 2 ^ rSize * 16 - 1 := by
  have hf1 : (1 : Int) ≤ 2 ^ rSize := by exact_mod_cast Nat.one_le_two_pow (n := rSize)
  have heq : decodeMotionVector rSize mCode r motion =
      (if motion + motionDelta rSize mCode r > 2 ^ rSize * 16 - 1 then
        motion + motionDelta rSize mCode r - 2 ^ rSize * 32
      else if motion + motionDelta rSize mCode r < -(2 ^ rSize * 16) then
        motion + motionDelta rSize mCode r + 2 ^ rSize * 32
      else
        motion + motionDelta rSize mCode r) := by
    have hd : (if mCode ≠ 0 ∧ (1 <<< (rSize : Int) : Int) ≠ 1 then
        (if mCode < 0 then -(((goAbs mCode - 1) <<< (rSize : Int)) + r + 1)
         else ((goAbs mCode - 1) <<< (rSize : Int)) + r + 1)
      else mCode) = motionDelta rSize mCode r := by
      rw [motionDelta]
      simp only [int_shiftLeft_natCast, one_mul]
      by_cases h0 : mCode = 0
      · simp [h0]
      · by_cases hsc : (2 ^ rSize : Int) = 1
        · simp [hsc, h0]
        · simp only [h0, hsc, ne_eq, not_false_iff, and_self, if_true]
          split <;> ring
    rw [decodeMotionVector]
    simp only [int_shiftLeft_natCast, int_shiftLeft_four, int_shiftLeft_five, one_mul] at hd ⊢
    rw [hd]
    have hneg : (-(2 ^ rSize) : Int) * 16 = -(2 ^ rSize * 16) := by ring
    rw [hneg]
  refine ⟨heq, ?_⟩
  have hdelta : -(2 ^ rSize * 16) ≤ motionDelta rSize mCode r ∧
      motionDelta rSize mCode r ≤ 2 ^ rSize * 16 := by
    rw [motionDelta]
    split
    · next hcond =>
      have habs : 1 ≤ goAbs mCode := by
        rcases hcond with ⟨h0, _⟩
        rw [goAbs]
        split <;> omega
      have hmul0 : 0 ≤ (goAbs mCode - 1) * 2 ^ rSize :=
        mul_nonneg (by omega) (by positivity)
      have hmul15 : (goAbs mCode - 1) * 2 ^ rSize ≤ 15 * 2 ^ rSize :=
        mul_le_mul_of_nonneg_right (by omega) (by positivity)
      have h15 : (15 : Int) * 2 ^ rSize = 2 ^ rSize * 15 := by ring
      rw [h15] at hmul15
      split
      · constructor <;> nlinarith
      · constructor <;> nlinarith
    · have : -16 ≤ mCode ∧ mCode ≤ 16 := by
        rw [goAbs] at hm
        split at hm <;> omega
      omega
  rw [heq]
  rcases hdelta with ⟨hd1, hd2⟩
  split
  · next h1 =>
    have h1a := Int.lt_iff_add_one_le.mp h1
    constructor <;> linarith
  · split
    · next h2 =>
      have h2a := Int.lt_iff_add_one_le.mp h2
      constructor <;> linarith
    · next h1 h2 =>
      push_neg at h1 h2
      constructor <;> linarith

theorem int_shiftLeft_one (a : Int) : a <<< (1 : Int) = a * 2 := by
  rw [show (1 : Int) = ((1 : Nat) : Int) from rfl, int_shiftLeft_natCast]
  norm_num

theorem int_shiftRight_four (a : Int) : a >>> (4 : Nat) = a / 16 := by
  have h := Int.shiftRight_eq_div_pow a 4
  norm_num at h
  exact h

/-- Go table `videoZigZag`. -/
def videoZigZag : List Nat :=
  [0, 1, 8, 16, 9, 2, 3, 10,
   17, 24, 32, 25, 18, 11, 4, 5,
   12, 19, 26, 33, 40, 48, 41, 34,
   27, 20, 13, 6, 7, 14, 21, 28,
   35, 42, 49, 56, 57, 50, 43, 36,
   29, 22, 15, 23, 30, 37, 44, 51,
   58, 59, 52, 45, 38, 31, 39, 46,
   53, 60, 61, 54, 47, 55, 62, 63]

/-- Go table `videoIntraQuantMatrix` (default intra quantization
matrix, natural order). -/
def videoIntraQuantMatrix : List Nat :=
  [8, 16, 19, 22, 26, 27, 29, 34,
   16, 16, 22, 24, 27, 29, 34, 37,
   19, 22, 26, 27, 29, 34, 34, 38,
   22, 22, 26, 27, 29, 34, 37, 40,
   22, 26, 27, 29, 32, 35, 40, 48,
   26, 27, 29, 32, 35, 40, 48, 58,
   26, 27, 29, 34, 38, 46, 56, 69,
   27, 29, 35, 38, 46, 56, 69, 83]

/-- Go table `videoNonIntraQuantMatrix` (default non-intra
quantization matrix: all 16). -/
def videoNonIntraQuantMatrix : List Nat :=
  List.replicate 64 16

/-- Go table `videoPremultiplierMatrix`. -/
def videoPremultiplierMatrix : List Nat :=
  [32, 44, 42, 38, 32, 25, 17, 9,
   44, 62, 58, 52, 44, 35, 24, 12,
   42, 58, 55, 49, 42, 33, 23, 12,
   38, 52, 49, 44, 38, 30, 20, 10,
   32, 44, 42, 38, 32, 25, 17, 9,
   25, 35, 33, 30, 25, 20, 14, 7,
   17, 24, 23, 20, 17, 14, 9, 5,
   9, 12, 12, 10, 9, 7, 5, 2]

/-- The dequantize-oddify-clip-premultiply sequence of Go
`Video.decodeBlock` for one AC coefficient (the statements from
`level <<= 1` to `v.blockData[deZigZagged] = level * ...`), with the
surrounding state passed in: whether the macroblock is intra, the
current quantizer scale, the active quantization matrix, the
coefficient position `n` and the signed raw level.  Go `level & 1` is
the low bit of the two's-complement integer, i.e. the evenness test
`level % 2 = 0` used here; Go `>> 4` on int is the arithmetic shift
`>>> 4`.  Returns the value the source stores at
`blockData[videoZigZag[n]]`. -/
def decodeBlockStore (macroblockIntra : Bool) (quantizerScale : Int)
    (quantMatrix : List Nat) (n : Nat) (level : Int) : Int :=
  let deZigZagged := videoZigZag.getD n 0
  let level := level <<< (1 : Int)
  let level :=
    if ¬ macroblockIntra then
      if level < 0 then level + (-1) else level + 1
    else level
  let level := (level * quantizerScale * (quantMatrix.getD deZigZagged 0 : Int)) >>> (4 : Nat)
  let level :=
    if level % 2 = 0 then
      if level > 0 then level - 1 else level - (-1)
    else level
  let level := if level > 2047 then 2047 else if level < -2048 then -2048 else level
  level * (videoPremultiplierMatrix.getD deZigZagged 0 : Int)

/-- The claim's dequantization formula: level doubled, a sign-based one
added for non-intra macroblocks, multiplied by the quantizer scale and
the quantization matrix entry, floor-shifted right by four. -/
def specDequantize (intra : Bool) (qscale qmEntry level : Int) : Int :=
  ((level * 2 + (if intra then 0 else if level < 0 then -1 else 1)) * qscale * qmEntry) / 16

/-- The claim's odd-correction: an even value moves one toward zero
(the even value 0 becomes 1, as the source does). -/
def specOddCorrect (level : Int) : Int :=
  if level % 2 = 0 then (if level > 0 then level - 1 else level + 1) else level

/-- The claim's clip to `[-2048, 2047]`. -/
def specClip (level : Int) : Int :=
  max (-2048) (min 2047 level)

theorem clip_eq_specClip (l : Int) :
    (if l > 2047 then 2047 else if l < -2048 then -2048 else l) = specClip l := by
  rw [specClip, max_def, min_def]
  split <;> split <;> omega

/-- C5.  Every AC coefficient stored by `Video.decodeBlock` equals the
claim's pipeline - dequantize (`×2`, sign-based `±1` for non-intra,
`×qscale`, `×quantMatrix[zigzag n]`, arithmetic `>>4`), then odd-correct
(subtract one toward zero when even, the even value 0 becoming 1), then
clip to `[-2048, 2047]`, then multiply by the fixed premultiplier matrix
entry at the zig-zag position - and the odd-corrected intermediate value
is always odd. -/
theorem decodeBlock_dequantization (intra : Bool) (qscale : Int)
    (quantMatrix : List Nat) (n : Nat) (level : Int) :
    decodeBlockStore intra qscale quantMatrix n level =
      specClip (specOddCorrect (specDequantize intra qscale
          (quantMatrix.getD (videoZigZag.getD n 0) 0 : Int) level)) *
        (videoPremultiplierMatrix.getD (videoZigZag.getD n 0) 0 : Int) ∧
    (∀ x : Int, specOddCorrect x % 2 = 1) := by
  constructor
  · rw [decodeBlockStore]
    congr 1
    rw [← clip_eq_specClip]
    have hinner : (if ¬ intra then
          (if level <<< (1 : Int) < 0 then level <<< (1 : Int) + (-1)
           else level <<< (1 : Int) + 1)
        else level <<< (1 : Int)) =
        level * 2 + (if intra then 0 else if level < 0 then -1 else 1) := by
      rw [int_shiftLeft_one]
      cases intra with
      | true =>
        rw [if_neg (show ¬ ¬ (true = true) by simp), if_pos (show true = true from rfl)]
        omega
      | false =>
        rw [if_pos (show ¬ (false = true) by simp),
          if_neg (show ¬ (false = true) by simp)]
        by_cases hl : level < 0
        · rw [if_pos (show level * 2 < 0 by omega), if_pos hl]
        · rw [if_neg (show ¬ level * 2 < 0 by omega), if_neg hl]
    rw [hinner, int_shiftRight_four]
    rw [specDequantize, specOddCorrect]
    simp only [sub_neg_eq_add]
  · intro x
    rw [specOddCorrect]
    split
    · split <;> omega
    · omega

example : decodeBlockStore true 8 videoIntraQuantMatrix 1 1 = 660 := by decide

example : decodeBlockStore false 2 videoNonIntraQuantMatrix 0 (-3) = -416 := by decide

/-- Witness for C4 at `rSize = 2` (`fscale = 4`), code 3, residual 1,
previous value 60: the delta is 10, the sum 70 exceeds 63 and wraps by
one subtraction of 128 to -58, inside `[-64, 63]`. -/
theorem decodeMotionVector_spec_witness :
    decodeMotionVector 2 3 1 60 = -58 ∧
    -(2 ^ 2 * 16 : Int) ≤ decodeMotionVector 2 3 1 60 ∧
    decodeMotionVector 2 3 1 60 ≤ 2 ^ 2 * 16 - 1 := by
  have h := decodeMotionVector_spec 2 3 1 60 (by decide) (by decide) (by decide)
    (by decide) (by decide)
  exact ⟨by rw [h.1]; decide, h.2.1, h.2.2⟩

/-! ### Frame reordering (Go `Video.Decode` / `Video.decodePicture`)

The three `Frame` values of the decoder are represented by tags
(`Nat`); decoding the slices of a picture into `frameCurrent` is
represented by storing the picture's `content` tag there.  The motion
bookkeeping (`FullPx`/`RSize` assignments) touches no frame and is not
tracked; everything below mirrors the assignment and emission order of
the source. -/

/-- Go constant `pictureTypeIntra = 1`. -/
def pictureTypeIntra : Nat := 1

/-- Go constant `pictureTypePredictive = 2`. -/
def pictureTypePredictive : Nat := 2

/-- Go constant `pictureTypeB = 3`. -/
def pictureTypeB : Nat := 3

/-- The `Video` fields driving frame reordering. -/
structure VideoRe where
  frameCurrent : Nat
  frameForward : Nat
  frameBackward : Nat
  pictureType : Nat
  hasReferenceFrame : Bool
  assumeNoBFrames : Bool
  deriving Repr, DecidableEq

/-- One coded picture of the abstract input stream: its 3-bit type, the
two f_code fields read for P/B pictures, and the tag its slices decode
into `frameCurrent`. -/
structure VidPicture where
  ptype : Nat
  fwdFCode : Nat
  bwdFCode : Nat
  content : Nat
  deriving Repr, DecidableEq

/-- Go `Video.decodePicture`, frame bookkeeping only: store the picture
type; bail out on D/unknown types and on a zero forward f_code (P and B)
or zero backward f_code (B); otherwise save `frameForward` in a
temporary, move `frameBackward` to `frameForward` for reference (I/P)
pictures, decode the slices into `frameCurrent`, and for reference
pictures rotate the just-decoded `frameCurrent` into `frameBackward`
and the temporary into `frameCurrent`. -/
def decodePictureModel (v : VideoRe) (ptype fwdFCode bwdFCode content : Nat) : VideoRe :=
  let v := { v with pictureType := ptype }
  if ptype = 0 ∨ ptype > pictureTypeB then v
  else if (ptype = pictureTypePredictive ∨ ptype = pictureTypeB) ∧ fwdFCode = 0 then v
  else if ptype = pictureTypeB ∧ bwdFCode = 0 then v
  else
    let frameTemp := v.frameForward
    let v := if ptype = pictureTypeIntra ∨ ptype = pictureTypePredictive then
        { v with frameForward := v.frameBackward }
      else v
    let v := { v with frameCurrent := content }
    if ptype = pictureTypeIntra ∨ ptype = pictureTypePredictive then
      { v with frameBackward := v.frameCurrent, frameCurrent := frameTemp }
    else v

/-- The emission loop of Go `Video.Decode` over an abstract stream of
pictures.  The start-code scan failing corresponds to the picture list
being empty, with `ended` the value of `buf.HasEnded()` there; a found
picture start code corresponds to a `VidPicture` at the head.  Returns
the emitted frame tag (`none` when `Decode` returns nil), the final
state and the unconsumed pictures. -/
def videoDecodeModel (v : VideoRe) (pics : List VidPicture) (ended : Bool) :
    Option Nat × VideoRe × List VidPicture :=
  match pics with
  | [] =>
    if v.hasReferenceFrame ∧ ¬ v.assumeNoBFrames ∧ ended ∧
        (v.pictureType = pictureTypeIntra ∨ v.pictureType = pictureTypePredictive) then
      (some v.frameBackward, { v with hasReferenceFrame := false }, [])
    else
      (none, v, [])
  | p :: rest =>
    let v := decodePictureModel v p.ptype p.fwdFCode p.bwdFCode p.content
    if v.assumeNoBFrames then
      (some v.frameBackward, v, rest)
    else if v.pictureType = pictureTypeB then
      (some v.frameCurrent, v, rest)
    else if v.hasReferenceFrame then
      (some v.frameForward, v, rest)
    else
      videoDecodeModel { v with hasReferenceFrame := true } rest ended

/-- C9.  A P or B picture whose forward f_code reads zero, and a B
picture whose backward f_code reads zero, make `Video.decodePicture`
return before any slice is decoded: the current, forward and backward
frames are all left unchanged by that picture. -/
theorem decodePicture_zero_fcode (v : VideoRe) (ptype fwdFCode bwdFCode content : Nat)
    (h : ((ptype = pictureTypePredictive ∨ ptype = pictureTypeB) ∧ fwdFCode = 0) ∨
        (ptype = pictureTypeB ∧ bwdFCode = 0)) :
    (decodePictureModel v ptype fwdFCode bwdFCode content).frameCurrent = v.frameCurrent ∧
    (decodePictureModel v ptype fwdFCode bwdFCode content).frameForward = v.frameForward ∧
    (decodePictureModel v ptype fwdFCode bwdFCode content).frameBackward = v.frameBackward := by
  simp only [pictureTypeIntra, pictureTypePredictive, pictureTypeB] at h
  rw [decodePictureModel]
  simp only [pictureTypeIntra, pictureTypePredictive, pictureTypeB]
  split_ifs <;> first
    | exact ⟨rfl, rfl, rfl⟩
    | omega

/-- Witness for C9: a predictive picture with zero forward f_code
leaves the frames of a concrete state untouched. -/
theorem decodePicture_zero_fcode_witness :
    (decodePictureModel
        { frameCurrent := 10, frameForward := 11, frameBackward := 12,
          pictureType := 1, hasReferenceFrame := true, assumeNoBFrames := false }
        2 0 1 99).frameCurrent = 10 ∧
    (decodePictureModel
        { frameCurrent := 10, frameForward := 11, frameBackward := 12,
          pictureType := 1, hasReferenceFrame := true, assumeNoBFrames := false }
        2 0 1 99).frameForward = 11 ∧
    (decodePictureModel
        { frameCurrent := 10, frameForward := 11, frameBackward := 12,
          pictureType := 1, hasReferenceFrame := true, assumeNoBFrames := false }
        2 0 1 99).frameBackward = 12 :=
  decodePicture_zero_fcode _ 2 0 1 99 (Or.inl ⟨Or.inl rfl, rfl⟩)

/-- C2.  The reordering behaviour of `Video.Decode`: (1) a decoded B
picture makes `Decode` return the current frame, i.e. the just-decoded
content; (2) a decoded I or P picture, when a reference is already
buffered, makes `Decode` return the forward frame - which
`decodePicture` has just loaded with the previously buffered reference
(the old backward frame) - while the just-decoded picture moves into
backward and the old backward into forward; (3) the first reference
picture after construction or `Rewind` (no reference buffered) is not
returned: `Decode` records the reference and continues with the next
picture; (4) when the picture scan fails with the buffer ended and a
held-back I/P reference pending, `Decode` still returns that reference
frame, taken from `frameBackward`.  (All with no-delay mode off, as the
claim's reordering presumes.) -/
theorem video_decode_reordering :
    (∀ (v : VideoRe) (p : VidPicture) (rest : List VidPicture) (ended : Bool),
      v.assumeNoBFrames = false → p.ptype = pictureTypeB →
      p.fwdFCode ≠ 0 → p.bwdFCode ≠ 0 →
      videoDecodeModel v (p :: rest) ended =
        (some p.content,
         { v with pictureType := pictureTypeB, frameCurrent := p.content }, rest)) ∧
    (∀ (v : VideoRe) (p : VidPicture) (rest : List VidPicture) (ended : Bool),
      v.assumeNoBFrames = false → v.hasReferenceFrame = true →
      (p.ptype = pictureTypeIntra ∨ (p.ptype = pictureTypePredictive ∧ p.fwdFCode ≠ 0)) →
      videoDecodeModel v (p :: rest) ended =
        (some v.frameBackward,
         { v with pictureType := p.ptype, frameForward := v.frameBackward,
                  frameBackward := p.content, frameCurrent := v.frameForward }, rest)) ∧
    (∀ (v : VideoRe) (p : VidPicture) (rest : List VidPicture) (ended : Bool),
      v.assumeNoBFrames = false → v.hasReferenceFrame = false →
      (p.ptype = pictureTypeIntra ∨ (p.ptype = pictureTypePredictive ∧ p.fwdFCode ≠ 0)) →
      videoDecodeModel v (p :: rest) ended =
        videoDecodeModel
          { v with pictureType := p.ptype, frameForward := v.frameBackward,
                   frameBackward := p.content, frameCurrent := v.frameForward,
                   hasReferenceFrame := true } rest ended) ∧
    (∀ (v : VideoRe) (ended : Bool),
      v.hasReferenceFrame = true → v.assumeNoBFrames = false → ended = true →
      (v.pictureType = pictureTypeIntra ∨ v.pictureType = pictureTypePredictive) →
      videoDecodeModel v [] ended =
        (some v.frameBackward, { v with hasReferenceFrame := false }, [])) := by
  refine ⟨?_, ?_, ?_, ?_⟩
  · intro v p rest ended hnb hpt hff hbf
    obtain ⟨pt, ff, bf, c⟩ := p
    simp only [pictureTypeB] at hpt
    dsimp only at hpt hff hbf ⊢
    subst hpt
    simp only [videoDecodeModel, decodePictureModel, pictureTypeIntra,
      pictureTypePredictive, pictureTypeB]
    simp [hff, hbf, hnb]
  · intro v p rest ended hnb href hpt
    obtain ⟨pt, ff, bf, c⟩ := p
    simp only [pictureTypeIntra, pictureTypePredictive] at hpt
    dsimp only at hpt ⊢
    rcases hpt with hpt | ⟨hpt, hff⟩
    · subst hpt
      simp only [videoDecodeModel, decodePictureModel, pictureTypeIntra,
        pictureTypePredictive, pictureTypeB]
      simp [hnb, href]
    · subst hpt
      simp only [videoDecodeModel, decodePictureModel, pictureTypeIntra,
        pictureTypePredictive, pictureTypeB]
      simp [hnb, href, hff]
  · intro v p rest ended hnb href hpt
    obtain ⟨pt, ff, bf, c⟩ := p
    simp only [pictureTypeIntra, pictureTypePredictive] at hpt
    dsimp only at hpt ⊢
    rcases hpt with hpt | ⟨hpt, hff⟩
    · subst hpt
      conv_lhs => rw [videoDecodeModel]
      simp only [decodePictureModel, pictureTypeIntra, pictureTypePredictive,
        pictureTypeB]
      simp [hnb, href]
    · subst hpt
      conv_lhs => rw [videoDecodeModel]
      simp only [decodePictureModel, pictureTypeIntra, pictureTypePredictive,
        pictureTypeB]
      simp [hnb, href, hff]
  · intro v ended href hnb hend hpt
    rw [videoDecodeModel]
    rw [if_pos ⟨href, by simp [hnb], by simp [hend], hpt⟩]

/-- Witness for C2 at a concrete state: a fully decoded B picture emits
its own content and leaves the reference frames in place. -/
theorem video_decode_reordering_witness :
    videoDecodeModel
        { frameCurrent := 5, frameForward := 6, frameBackward := 7,
          pictureType := 1, hasReferenceFrame := true, assumeNoBFrames := false }
        [{ ptype := 3, fwdFCode := 2, bwdFCode := 3, content := 42 }] false =
      (some 42,
       { frameCurrent := 42, frameForward := 6, frameBackward := 7,
         pictureType := 3, hasReferenceFrame := true, assumeNoBFrames := false },
       []) := by
  rw [video_decode_reordering.1
    { frameCurrent := 5, frameForward := 6, frameBackward := 7,
      pictureType := 1, hasReferenceFrame := true, assumeNoBFrames := false }
    { ptype := 3, fwdFCode := 2, bwdFCode := 3, content := 42 }
    [] false rfl rfl (by decide) (by decide)]
  rfl

/-! ### Macroblock address handling (Go `Video.decodeMacroblock`,
`Video.decodeSlice`) -/

/-- Entry of a flat VLC table, Go struct `vlc`. -/
structure vlc where
  Index : Int
  Value : Int
  deriving Repr, DecidableEq

/-- Go `Buffer.readVlc`: walk the flat table, reading one bit per step,
until a terminal entry (`Index <= 0`) is reached.  The walk visits
strictly increasing table positions, so `fuel := table.length + 1`
(passed by `readVlc`) can never run out on the source's tables. -/
def readVlcAux (table : List vlc) (b : Buffer) (state : vlc) (fuel : Nat) :
    Int × Buffer :=
  match fuel with
  | 0 => (state.Value, b)
  | fuel + 1 =>
    let rb := b.read1
    let st := table.getD (state.Index + (rb.1 : Int)).toNat { Index := 0, Value := 0 }
    if st.Index ≤ 0 then (st.Value, rb.2)
    else readVlcAux table rb.2 st fuel

/-- Go `Buffer.readVlc`. -/
def readVlc (b : Buffer) (table : List vlc) : Int × Buffer :=
  readVlcAux table b { Index := 0, Value := 0 } (table.length + 1)

/-- Go table `videoMacroblockAddressIncrement` (entries `{n << 1, v}`
written with the shift evaluated).  The `⟨-1, 0⟩` entries are the
reserved/invalid codes: `readVlc` returns their `Value`, 0. -/
def videoMacroblockAddressIncrement : List vlc :=
  [vlc.mk 2 0, vlc.mk 0 1, vlc.mk 4 0, vlc.mk 6 0,
   vlc.mk 8 0, vlc.mk 10 0, vlc.mk 0 3, vlc.mk 0 2,
   vlc.mk 12 0, vlc.mk 14 0, vlc.mk 0 5, vlc.mk 0 4,
   vlc.mk 16 0, vlc.mk 18 0, vlc.mk 0 7, vlc.mk 0 6,
   vlc.mk 20 0, vlc.mk 22 0, vlc.mk 24 0, vlc.mk 26 0,
   vlc.mk 28 0, vlc.mk 30 0, vlc.mk 32 0, vlc.mk 34 0,
   vlc.mk 36 0, vlc.mk 38 0, vlc.mk 0 9, vlc.mk 0 8,
   vlc.mk (-1) 0, vlc.mk 40 0, vlc.mk (-1) 0, vlc.mk 42 0,
   vlc.mk 44 0, vlc.mk 46 0, vlc.mk 0 15, vlc.mk 0 14,
   vlc.mk 0 13, vlc.mk 0 12, vlc.mk 0 11, vlc.mk 0 10,
   vlc.mk 48 0, vlc.mk 50 0, vlc.mk 52 0, vlc.mk 54 0,
   vlc.mk 56 0, vlc.mk 58 0, vlc.mk 60 0, vlc.mk 62 0,
   vlc.mk 64 0, vlc.mk (-1) 0, vlc.mk (-1) 0, vlc.mk 66 0,
   vlc.mk 68 0, vlc.mk 70 0, vlc.mk 72 0, vlc.mk 74 0,
   vlc.mk 76 0, vlc.mk 78 0, vlc.mk 0 21, vlc.mk 0 20,
   vlc.mk 0 19, vlc.mk 0 18, vlc.mk 0 17, vlc.mk 0 16,
   vlc.mk 0 35, vlc.mk (-1) 0, vlc.mk (-1) 0, vlc.mk 0 34,
   vlc.mk 0 33, vlc.mk 0 32, vlc.mk 0 31, vlc.mk 0 30,
   vlc.mk 0 29, vlc.mk 0 28, vlc.mk 0 27, vlc.mk 0 26,
   vlc.mk 0 25, vlc.mk 0 24, vlc.mk 0 23, vlc.mk 0 22]

/-- The fields of Go `Video` that `decodeMacroblock` uses for address
arithmetic (Go `int` everywhere: negative values can and do occur). -/
structure MBState where
  macroblockAddress : Int
  sliceBegin : Bool
  mbRow : Int
  mbCol : Int
  mbWidth : Int
  mbHeight : Int
  mbSize : Int
  deriving Repr, DecidableEq

/-- The macroblock address a slice starts from, Go `Video.decodeSlice`:
`macroblockAddress = (slice-1)*mbWidth - 1`. -/
def sliceStartAddress (slice mbWidth : Int) : Int :=
  (slice - 1) * mbWidth - 1

/-- The skipped-macroblock loop of Go `Video.decodeMacroblock`
(`for increment > 1`): advance the address one step at a time, emitting
the `(mbRow, mbCol)` position that `predictMacroblock` writes for each
skipped macroblock; Go `/` and `%` on int are `Int.tdiv`/`Int.tmod`.
The iteration count `(increment - 1).toNat` is passed by the caller. -/
def skippedMacroblocks (addr mbWidth : Int) : Nat → Int × List (Int × Int)
  | 0 => (addr, [])
  | k + 1 =>
    let addr := addr + 1
    let pos := (addr.tdiv mbWidth, addr.tmod mbWidth)
    let r := skippedMacroblocks addr mbWidth k
    (r.1, pos :: r.2)

/-- The tail of Go `Video.decodeMacroblock` from the `mbRow`/`mbCol`
update on: bail out when `mbCol >= mbWidth || mbRow >= mbHeight`
(before the macroblock type is read and before anything is written),
otherwise emit the position written by `predictMacroblock` (non-intra
macroblocks) and by `decodeBlock` for each of the `blockCount` coded
blocks of the coded-block pattern. -/
def decodeMacroblockTail (v : MBState) (intra : Bool) (blockCount : Nat)
    (acc : List (Int × Int)) : MBState × List (Int × Int) :=
  let v := { v with mbRow := v.macroblockAddress.tdiv v.mbWidth,
                    mbCol := v.macroblockAddress.tmod v.mbWidth }
  if v.mbCol ≥ v.mbWidth ∨ v.mbRow ≥ v.mbHeight then
    (v, acc)
  else
    (v, acc ++ (if intra then [] else [(v.mbRow, v.mbCol)]) ++
      List.replicate blockCount (v.mbRow, v.mbCol))

/-- Go `Video.decodeMacroblock` with the bit-stream reads passed in:
`increment` is the aggregated address increment after the VLC loop
(33 per escape code plus the final code value - 0 for the reserved
`⟨-1, 0⟩ `codes), `intra` the intra bit of the decoded macroblock type,
and `blockCount` the number of coded blocks.  At a slice start the
increment is an absolute offset from the row start; otherwise the
address advances by `max increment 1` with a bail-out when
`macroblockAddress + increment` reaches `mbSize`, predicting each
skipped macroblock on the way.  Returns the final state and the
positions written into the current frame. -/
def decodeMacroblockModel (v : MBState) (increment : Int) (intra : Bool)
    (blockCount : Nat) : MBState × List (Int × Int) :=
  if v.sliceBegin then
    let v := { v with sliceBegin := false,
                      macroblockAddress := v.macroblockAddress + increment }
    decodeMacroblockTail v intra blockCount []
  else
    if v.macroblockAddress + increment ≥ v.mbSize then
      (v, [])
    else
      let sk := skippedMacroblocks v.macroblockAddress v.mbWidth (increment - 1).toNat
      let v := { v with macroblockAddress := sk.1 + 1 }
      decodeMacroblockTail v intra blockCount sk.2

/-- An all-zero bit stream, the shortest source of the reserved
(`⟨-1, 0⟩`) macroblock-address-increment code 0000 0000. -/
def zeroBuf : Buffer :=
  { bytes := [0x00, 0x00], bitIndex := 0, totalSize := 0, hasEnded := false,
    discardRead := false, hasReader := false }

/-- C10.  The two bail-out guards of `Video.decodeMacroblock` behave as
claimed: outside a slice start, `macroblockAddress + increment >= mbSize`
returns with nothing decoded and the state untouched, and a computed
`mbCol >= mbWidth` or `mbRow >= mbHeight` returns before the macroblock
type is read, with no position written.  But the headline safety claim
fails: the reserved increment VLC code (eight zero bits) decodes to 0,
and at the start of slice 1 a zero increment leaves
`macroblockAddress = (1-1)*mbWidth - 1 = -1`, so `mbRow = 0` and
`mbCol = -1` pass both guards (Go `/` and `%` truncate toward zero) and
the six intra blocks are written at column -1 - outside the macroblock
grid, a negative plane index on which the Go runtime panics. -/
theorem decodeMacroblock_out_of_frame :
    (∀ (v : MBState) (increment : Int) (intra : Bool) (blockCount : Nat),
      v.sliceBegin = false → v.macroblockAddress + increment ≥ v.mbSize →
      decodeMacroblockModel v increment intra blockCount = (v, [])) ∧
    (∀ (v : MBState) (intra : Bool) (blockCount : Nat) (acc : List (Int × Int)),
      v.macroblockAddress.tmod v.mbWidth ≥ v.mbWidth ∨
        v.macroblockAddress.tdiv v.mbWidth ≥ v.mbHeight →
      (decodeMacroblockTail v intra blockCount acc).2 = acc) ∧
    (readVlc zeroBuf videoMacroblockAddressIncrement).1 = 0 ∧
    decodeMacroblockModel
        { macroblockAddress := sliceStartAddress 1 2, sliceBegin := true,
          mbRow := 0, mbCol := 0, mbWidth := 2, mbHeight := 2, mbSize := 4 }
        0 true 6 =
      ({ macroblockAddress := -1, sliceBegin := false, mbRow := 0, mbCol := -1,
         mbWidth := 2, mbHeight := 2, mbSize := 4 },
       List.replicate 6 (0, -1)) ∧
    ∀ rc ∈ (decodeMacroblockModel
        { macroblockAddress := sliceStartAddress 1 2, sliceBegin := true,
          mbRow := 0, mbCol := 0, mbWidth := 2, mbHeight := 2, mbSize := 4 }
        0 true 6).2, rc.2 < 0 := by
  refine ⟨?_, ?_, by decide, by decide, by decide⟩
  · intro v increment intra blockCount hsb hge
    rw [decodeMacroblockModel]
    rw [if_neg (by simp [hsb]), if_pos hge]
  · intro v intra blockCount acc hguard
    rw [decodeMacroblockTail]
    rw [if_pos (by dsimp only; exact hguard)]

/-- Witness for C10's guard clauses at concrete inputs: with the
address already at the end of the grid, an increment that overshoots
`mbSize` is rejected with the state unchanged. -/
theorem decodeMacroblock_out_of_frame_witness :
    decodeMacroblockModel
        { macroblockAddress := 3, sliceBegin := false, mbRow := 1, mbCol := 1,
          mbWidth := 2, mbHeight := 2, mbSize := 4 } 2 false 3 =
      ({ macroblockAddress := 3, sliceBegin := false, mbRow := 1, mbCol := 1,
         mbWidth := 2, mbHeight := 2, mbSize := 4 }, []) :=
  decodeMacroblock_out_of_frame.1
    { macroblockAddress := 3, sliceBegin := false, mbRow := 1, mbCol := 1,
      mbWidth := 2, mbHeight := 2, mbSize := 4 } 2 false 3 rfl (by decide)

/-! ### MP2 audio decoder: `NewAudio` sample buffers and
`Audio.decodeHeader` (audio source file of the package) -/

/-- Go constant `SamplesPerFrame = 1152`. -/
def SamplesPerFrame : Nat := 1152

/-- Go constant `frameSync = 0x7ff`. -/
def frameSync : Nat := 0x7ff

/-- Go constant `mpeg1 = 0x3`. -/
def mpeg1 : Nat := 0x3

/-- Go constant `layerII = 0x2`. -/
def layerII : Nat := 0x2

/-- Go constant `modeStereo = 0x0`. -/
def modeStereo : Nat := 0x0

/-- Go constant `modeJointStereo = 0x1`. -/
def modeJointStereo : Nat := 0x1

/-- Go constant `modeDualChannel = 0x2`. -/
def modeDualChannel : Nat := 0x2

/-- Go constant `modeMono = 0x3`. -/
def modeMono : Nat := 0x3

/-- Go table `samplerate` (MPEG-1 then MPEG-2 rows). -/
def samplerate : List Nat :=
  [44100, 48000, 32000, 0, 22050, 24000, 16000, 0]

/-- Go table `bitrate` (MPEG-1 then MPEG-2 rows). -/
def bitrate : List Nat :=
  [32, 48, 56, 64, 80, 96, 112, 128, 160, 192, 224, 256, 320, 384,
   8, 16, 24, 32, 40, 48, 56, 64, 80, 96, 112, 128, 144, 160]

/-- The lengths of the five sample slices of Go `Samples`.  Only the
lengths are modelled: every write `decodeFrame` performs on them is a
Go slice element assignment, which cannot change a slice's length. -/
structure SamplesDims where
  s16 : Nat
  f32 : Nat
  left : Nat
  right : Nat
  interleaved : Nat
  deriving Repr, DecidableEq

/-- The allocation of Go `NewAudio`:
`make([]int16, SamplesPerFrame*2)`, `make([]float32, SamplesPerFrame*2)`,
`make([]float32, SamplesPerFrame)` twice, and
`make([]float32, SamplesPerFrame*2)` - fixed sizes, independent of the
stream's channel count. -/
def newAudioSamplesDims : SamplesDims :=
  { s16 := SamplesPerFrame * 2, f32 := SamplesPerFrame * 2,
    left := SamplesPerFrame, right := SamplesPerFrame,
    interleaved := SamplesPerFrame * 2 }

/-- The fields of Go `Audio` that `decodeHeader` reads or writes
(`bitrateIndex` is a Go int and reaches -1 when the raw 4-bit bitrate
field is 0). -/
structure AudioState where
  samplerateIndex : Nat
  bitrateIndex : Int
  mode : Nat
  channels : Nat
  bound : Nat
  hasHeader : Bool
  samplesDims : SamplesDims
  deriving Repr, DecidableEq

/-- The `Audio` state Go `NewAudio` starts from: `samplerateIndex = 3`
("indicates 0"), everything else zero, with the fixed sample-buffer
dimensions. -/
def newAudioState : AudioState :=
  { samplerateIndex := 3, bitrateIndex := 0, mode := 0, channels := 0,
    bound := 0, hasHeader := false, samplesDims := newAudioSamplesDims }

/-- Final stage of Go `Audio.decodeHeader`: the repeated-header
consistency check, the field assignments, channels and stereo bound
from the mode, the trailing 4 header bits and optional 16-bit CRC, and
the frame size `144000*bitrate/samplerate + padding` minus the 4 (6
with CRC) consumed bytes.  The source reads the frame-size inputs
through `a.bitrateIndex` and `a.samplerateIndex`, which the assignments
just set to the arguments used here.  Returns `none` exactly where Go
panics: `bitrate[a.bitrateIndex]` with index -1 (raw bitrate field 0) -
unreachable under this file's theorems, whose hypotheses keep the raw
field in 1..14. -/
def decodeHeaderApply (a : AudioState) (b : Buffer) (hasCRC : Bool)
    (bitrateIndex : Int) (samplerateIndex padding mode : Nat) :
    Option (Int × AudioState × Buffer) :=
  if a.hasHeader ∧ (a.bitrateIndex ≠ bitrateIndex ∨
      a.samplerateIndex ≠ samplerateIndex ∨ a.mode ≠ mode) then
    some (0, a, b)
  else
    let a := { a with bitrateIndex := bitrateIndex,
                      samplerateIndex := samplerateIndex,
                      mode := mode, hasHeader := true }
    let a := if mode = modeStereo ∨ mode = modeJointStereo then
        { a with channels := 2 }
      else if mode = modeMono then { a with channels := 1 } else a
    let ab :=
      if mode = modeJointStereo then
        (match b.read 2 with
         | (ext, b) => ({ a with bound := (ext + 1) <<< 2 }, b))
      else
        (let b2 := b.skip 2
         if mode = modeMono then ({ a with bound := 0 }, b2)
         else ({ a with bound := 32 }, b2))
    let a := ab.1
    let b := (ab.2).skip 4
    let b := if hasCRC then b.skip 16 else b
    if bitrateIndex < 0 then none else
    let br : Int := (bitrate.getD bitrateIndex.toNat 0 : Nat)
    let sr : Int := (samplerate.getD samplerateIndex 0 : Nat)
    let frameSize : Int := 144000 * br / sr + padding
    let r : Int := if hasCRC then 6 else 4
    some (frameSize - r, a, b)

/-- Padding/private/mode stage of Go `Audio.decodeHeader`: padding bit,
skipped private bit, 2-bit mode. -/
def decodeHeaderPadding (a : AudioState) (b : Buffer) (hasCRC : Bool)
    (bitrateIndex : Int) (samplerateIndex : Nat) :
    Option (Int × AudioState × Buffer) :=
  match b.read1 with
  | (padding, b) =>
  match (b.skip 1).read 2 with
  | (mode, b) =>
  decodeHeaderApply a b hasCRC bitrateIndex samplerateIndex padding mode

/-- Sample-rate stage of Go `Audio.decodeHeader`: 2-bit index, 3 is
reserved and rejected. -/
def decodeHeaderSamplerate (a : AudioState) (b : Buffer) (hasCRC : Bool)
    (bitrateIndex : Int) : Option (Int × AudioState × Buffer) :=
  match b.read 2 with
  | (samplerateIndex, b) =>
  if samplerateIndex = 3 then some (0, a, b)
  else decodeHeaderPadding a b hasCRC bitrateIndex samplerateIndex

/-- Bitrate stage of Go `Audio.decodeHeader`:
`bitrateIndex := read(4) - 1` (Go int: -1 for a raw field of 0), reject
`bitrateIndex > 13`. -/
def decodeHeaderBitrate (a : AudioState) (b : Buffer) (hasCRC : Bool) :
    Option (Int × AudioState × Buffer) :=
  match b.read 4 with
  | (braw, b) =>
  let bitrateIndex : Int := (braw : Int) - 1
  if bitrateIndex > 13 then some (0, a, b)
  else decodeHeaderSamplerate a b hasCRC bitrateIndex

/-- Go `Audio.decodeHeader` is transcribed as a chain of stage
functions, one per group of header fields, in the exact read order of
the source; each stage hands the updated buffer to the next.  This
stage: version and layer (2 bits each) and the CRC-present flag
(active when the read bit is 0); reject anything but MPEG-1 Layer II.
Returns `none` exactly where the Go code would panic (see
`decodeHeaderApply`); otherwise
`some (remaining frame size, updated state, updated buffer)`, the size
being 0 on every rejection path exactly as in the source. -/
def decodeHeaderSynced (a : AudioState) (b : Buffer) :
    Option (Int × AudioState × Buffer) :=
  match b.read 2 with
  | (version, b) =>
  match b.read 2 with
  | (layer, b) =>
  match b.read1 with
  | (crcBit, b) =>
  if version ≠ mpeg1 ∨ layer ≠ layerII then some (0, a, b)
  else decodeHeaderBitrate a b (crcBit = 0)

/-- Go `Audio.decodeHeader`: availability check, zero-byte stuffing,
11-bit syncword with `findFrameSync` resync (like the Go short-circuit,
`findFrameSync` is only consulted when the syncword read fails), then
the synced stages. -/
def decodeHeader (a : AudioState) (b : Buffer) :
    Option (Int × AudioState × Buffer) :=
  match b.has 48 with
  | (false, b) => some (0, a, b)
  | (true, b) =>
  match b.skipBytes 0x00 with
  | (_, b) =>
  match b.read 11 with
  | (sync, b) =>
  if sync ≠ frameSync then
    (match b.findFrameSync with
     | (false, b) => some (0, a, b)
     | (true, b) => decodeHeaderSynced a b)
  else decodeHeaderSynced a b

/-- C7.  For every MP2 header accepted by `Audio.decodeHeader` - sync
present at the cursor, MPEG-1, Layer II, raw bitrate field in 1..14,
sample-rate index 0..2, no previous-header mismatch - the returned
remaining-frame byte size is `144000 * bitrate / samplerate + padding`
(integer division), minus 4 for the already-consumed header, minus 2
more when the CRC-present flag is set (a CRC bit of 0). -/
theorem decodeHeader_frame_size
    (a : AudioState) (b b0 b1 b2 b3 b4 b5 b6 b7 b9 b10 : Buffer)
    (stuffed crcBit braw sri padding mode : Nat)
    (hHH : a.hasHeader = false)
    (h0 : b.has 48 = (true, b0))
    (h1 : b0.skipBytes 0x00 = (stuffed, b1))
    (h2 : b1.read 11 = (frameSync, b2))
    (h3 : b2.read 2 = (mpeg1, b3))
    (h4 : b3.read 2 = (layerII, b4))
    (h5 : b4.read1 = (crcBit, b5))
    (h6 : b5.read 4 = (braw, b6))
    (hbr : 1 ≤ braw ∧ braw ≤ 14)
    (h7 : b6.read 2 = (sri, b7))
    (hsr : sri ≤ 2)
    (h8 : b7.read1 = (padding, b9))
    (h10 : (b9.skip 1).read 2 = (mode, b10)) :
    (decodeHeader a b).map (fun x => x.1) =
      some ((144000 * (bitrate.getD (braw - 1) 0 : Int)) /
          (samplerate.getD sri 0 : Int) + (padding : Int) -
        (if crcBit = 0 then 6 else 4)) := by
  have s0 : decodeHeader a b = decodeHeaderSynced a b2 := by
    simp only [decodeHeader, h0, h1, h2, ne_eq, eq_self_iff_true, not_true,
      if_false, ite_false]
  have s1 : decodeHeaderSynced a b2 = decodeHeaderBitrate a b5 (crcBit = 0) := by
    simp only [decodeHeaderSynced, h3, h4, h5, ne_eq, eq_self_iff_true, not_true,
      or_self, if_false, ite_false]
  have s2 : decodeHeaderBitrate a b5 (crcBit = 0) =
      decodeHeaderSamplerate a b6 (crcBit = 0) ((braw : Int) - 1) := by
    simp only [decodeHeaderBitrate, h6]
    rw [if_neg (show ¬ ((braw : Int) - 1 > 13) by omega)]
  have s3 : decodeHeaderSamplerate a b6 (crcBit = 0) ((braw : Int) - 1) =
      decodeHeaderPadding a b7 (crcBit = 0) ((braw : Int) - 1) sri := by
    simp only [decodeHeaderSamplerate, h7]
    rw [if_neg (show ¬ (sri = 3) by omega)]
  have s4 : decodeHeaderPadding a b7 (crcBit = 0) ((braw : Int) - 1) sri =
      decodeHeaderApply a b10 (crcBit = 0) ((braw : Int) - 1) sri padding mode := by
    simp only [decodeHeaderPadding, h8, h10]
  rw [s0, s1, s2, s3, s4]
  rw [decodeHeaderApply]
  rw [if_neg (by simp [hHH])]
  rw [if_neg (show ¬ ((braw : Int) - 1 < 0) by omega)]
  have ht : ((braw : Int) - 1).toNat = braw - 1 := by omega
  rw [ht]
  simp only [Option.map_some']
  by_cases hc : crcBit = 0 <;> simp [hc]

/-- Concrete MP2 header for the C7 witness: sync, MPEG-1, Layer II, no
CRC, bitrate 80 kbit/s (raw field 5), 44100 Hz, no padding, stereo. -/
def c7Buf : Buffer :=
  { bytes := [0xFF, 0xFD, 0x50, 0x00, 0x00, 0x00], bitIndex := 0,
    totalSize := 0, hasEnded := false, discardRead := false, hasReader := false }

/-- Witness for C7: `144000 * 80 / 44100 + 0 - 4 = 257` remaining
bytes on the concrete header. -/
theorem decodeHeader_frame_size_witness :
    (decodeHeader newAudioState c7Buf).map (fun x => x.1) = some 257 := by
  rw [decodeHeader_frame_size newAudioState c7Buf c7Buf c7Buf
      { c7Buf with bitIndex := 11 } { c7Buf with bitIndex := 13 }
      { c7Buf with bitIndex := 15 } { c7Buf with bitIndex := 16 }
      { c7Buf with bitIndex := 20 } { c7Buf with bitIndex := 22 }
      { c7Buf with bitIndex := 23 } { c7Buf with bitIndex := 26 }
      0 1 5 0 0 0
      rfl (by decide) (by decide) (by decide) (by decide) (by decide) (by decide)
      (by decide) (by decide) (by decide) (by decide) (by decide) (by decide)]
  decide

/-- Concrete MP2 header for the C6 counterexample and witness: sync,
MPEG-1, Layer II, no CRC, bitrate 80 kbit/s (raw field 5), 44100 Hz, no
padding, single-channel (mono) mode. -/
def c6Buf : Buffer :=
  { bytes := [0xFF, 0xFD, 0x50, 0xC0, 0x00, 0x00], bitIndex := 0,
    totalSize := 0, hasEnded := false, discardRead := false, hasReader := false }

/-- A mono MP2 header is accepted with `channels = 1`, yet every sample
buffer keeps the stereo-sized allocation of `NewAudio`: the interleaved
buffer holds `SamplesPerFrame * 2 = 2304` entries, not
`SamplesPerFrame * channels = 1152`. -/
theorem audio_mono_keeps_stereo_buffers :
    (decodeHeader newAudioState c6Buf).map
        (fun x => ((x.2.1).channels, (x.2.1).samplesDims.interleaved)) =
      some (1, 2304) ∧
    (2304 : Nat) ≠ SamplesPerFrame * 1 := by
  constructor
  · decide
  · decide

/-- C6 (amended).  `Audio.decodeHeader` sets `channels` to 2 for stereo
and joint-stereo headers and to 1 for mono headers (dual-channel leaves
it unchanged), but never touches the sample buffers: their dimensions
are exactly those fixed at construction by `NewAudio`, namely
`SamplesPerFrame * 2` interleaved/S16/F32 entries and `SamplesPerFrame`
per-channel entries, independent of the decoded channel count. -/
theorem audio_sample_buffers_fixed
    (a : AudioState) (b b0 b1 b2 b3 b4 b5 b6 b7 b9 b10 : Buffer)
    (stuffed crcBit braw sri padding mode : Nat)
    (hHH : a.hasHeader = false)
    (h0 : b.has 48 = (true, b0))
    (h1 : b0.skipBytes 0x00 = (stuffed, b1))
    (h2 : b1.read 11 = (frameSync, b2))
    (h3 : b2.read 2 = (mpeg1, b3))
    (h4 : b3.read 2 = (layerII, b4))
    (h5 : b4.read1 = (crcBit, b5))
    (h6 : b5.read 4 = (braw, b6))
    (hbr : 1 ≤ braw ∧ braw ≤ 14)
    (h7 : b6.read 2 = (sri, b7))
    (hsr : sri ≤ 2)
    (h8 : b7.read1 = (padding, b9))
    (h10 : (b9.skip 1).read 2 = (mode, b10)) :
    (decodeHeader a b).map (fun x => ((x.2.1).channels, (x.2.1).samplesDims)) =
      some ((if mode = modeStereo ∨ mode = modeJointStereo then 2
             else if mode = modeMono then 1 else a.channels),
            a.samplesDims) ∧
    newAudioSamplesDims.interleaved = SamplesPerFrame * 2 ∧
    newAudioSamplesDims.s16 = SamplesPerFrame * 2 ∧
    newAudioSamplesDims.f32 = SamplesPerFrame * 2 ∧
    newAudioSamplesDims.left = SamplesPerFrame ∧
    newAudioSamplesDims.right = SamplesPerFrame := by
  refine ⟨?_, rfl, rfl, rfl, rfl, rfl⟩
  have s0 : decodeHeader a b = decodeHeaderSynced a b2 := by
    simp only [decodeHeader, h0, h1, h2, ne_eq, eq_self_iff_true, not_true,
      if_false, ite_false]
  have s1 : decodeHeaderSynced a b2 = decodeHeaderBitrate a b5 (crcBit = 0) := by
    simp only [decodeHeaderSynced, h3, h4, h5, ne_eq, eq_self_iff_true, not_true,
      or_self, if_false, ite_false]
  have s2 : decodeHeaderBitrate a b5 (crcBit = 0) =
      decodeHeaderSamplerate a b6 (crcBit = 0) ((braw : Int) - 1) := by
    simp only [decodeHeaderBitrate, h6]
    rw [if_neg (show ¬ ((braw : Int) - 1 > 13) by omega)]
  have s3 : decodeHeaderSamplerate a b6 (crcBit = 0) ((braw : Int) - 1) =
      decodeHeaderPadding a b7 (crcBit = 0) ((braw : Int) - 1) sri := by
    simp only [decodeHeaderSamplerate, h7]
    rw [if_neg (show ¬ (sri = 3) by omega)]
  have s4 : decodeHeaderPadding a b7 (crcBit = 0) ((braw : Int) - 1) sri =
      decodeHeaderApply a b10 (crcBit = 0) ((braw : Int) - 1) sri padding mode := by
    simp only [decodeHeaderPadding, h8, h10]
  rw [s0, s1, s2, s3, s4]
  rw [decodeHeaderApply]
  rw [if_neg (by simp [hHH])]
  rw [if_neg (show ¬ ((braw : Int) - 1 < 0) by omega)]
  by_cases hm1 : mode = modeJointStereo
  · rcases hre : b10.read 2 with ⟨ext, b11⟩
    simp [hm1, modeJointStereo, modeStereo, modeMono, hre]
  · by_cases hm3 : mode = modeMono
    · simp [hm1, hm3, modeJointStereo, modeStereo, modeMono]
    · by_cases hm0 : mode = modeStereo
      · simp [hm0, hm1, modeJointStereo, modeStereo, modeMono]
      · simp only [modeJointStereo] at hm1
        simp only [modeMono] at hm3
        simp only [modeStereo] at hm0
        simp [hm0, hm1, hm3, modeJointStereo, modeStereo, modeMono]

/-- Witness for C6: on the concrete mono header the channel count
becomes 1 while the sample dimensions stay the fixed `NewAudio` ones. -/
theorem audio_sample_buffers_fixed_witness :
    (decodeHeader newAudioState c6Buf).map
        (fun x => ((x.2.1).channels, (x.2.1).samplesDims)) =
      some (1, newAudioSamplesDims) := by
  rw [(audio_sample_buffers_fixed newAudioState c6Buf c6Buf c6Buf
      { c6Buf with bitIndex := 11 } { c6Buf with bitIndex := 13 }
      { c6Buf with bitIndex := 15 } { c6Buf with bitIndex := 16 }
      { c6Buf with bitIndex := 20 } { c6Buf with bitIndex := 22 }
      { c6Buf with bitIndex := 23 } { c6Buf with bitIndex := 26 }
      0 1 5 0 0 3
      rfl (by decide) (by decide) (by decide) (by decide) (by decide) (by decide)
      (by decide) (by decide) (by decide) (by decide) (by decide) (by decide)).1]
  decide
